import Mathlib

/-!
# Verification of the ts-askit source transformer

This file gives a shallow embedding of `src/transform/transformer.ts` and
proves or refutes the specified properties of the rewriting engine.

Modelling conventions:
* The TypeScript AST is embedded as the inductive types `Expr` / `Stmt`;
  a string literal and a no-substitution template literal are both
  `Expr.stringLit` (matching `ts.isStringLiteralLike`), and type arguments
  are opaque `TypeNode` values interpreted by the environment.
* External collaborators imported from modules outside the transformer
  (the template analyzer, the type-descriptor synthesizer, the name
  synthesizer, the host type checker and printer) are fields of an `Env`
  record that theorems quantify over.
* The filesystem is a pure existence oracle `FS`; the metadata write
  performed by `saveInfo` is modelled as a returned value (path, records)
  rather than an effect.
* Errors thrown with `throwError` become `Except.error`; the JavaScript
  `TypeError` raised when `template.text` is read while `arguments[0]` is
  `undefined` (the unchecked cast at transformer.ts line 187) is the
  distinguished error `TErr.undefinedAccess`.
* The process-wide mutable arrays `imports`/`functions` become explicit
  state `GState`; the per-unit accumulators threaded through the traversal
  become `TState`.  `TState.visited` is a ghost field recording, in order,
  every marker call-form the traversal dispatches to a rewrite function;
  the rewrite functions never read or modify it.
-/

namespace Askit

/-- Opaque handle for a `ts.TypeNode`; interpreted only by the environment. -/
abbrev TypeNode := Nat

/-- Opaque payload of one worked example (`ExampleType` in the source). -/
abbrev ExampleType := String

/-- Embedding of the TypeScript expression AST, restricted to the shapes the
transformer inspects or builds.  `call callee tyArgs args` carries
`node.typeArguments` as `Option (List TypeNode)` (`none` = `undefined`).
An object literal is a parallel list of property names and initializers.
`other` stands for any other expression kind with the given children. -/
inductive Expr where
  | stringLit : String → Expr
  | ident : String → Expr
  | arrayLit : List Expr → Expr
  | objectLit : List String → List Expr → Expr
  | propAccess : Expr → String → Expr
  | call : Expr → Option (List TypeNode) → List Expr → Expr
  | other : List Expr → Expr

/-- Embedding of the statement kinds the transformer builds or traverses:
a named import declaration, a `const x = e` statement, an expression
statement, and any other statement kind (childless, tagged). -/
inductive Stmt where
  | importDecl : List String → String → Stmt
  | varConst : String → Expr → Stmt
  | exprStmt : Expr → Stmt
  | other : Nat → Stmt

/-- A source unit: `ts.SourceFile` with its file name and statement list. -/
structure SourceFile where
  fileName : String
  statements : List Stmt

/-- One metadata record (`Info` in the source). -/
structure Info where
  signature : String
  desc : String
  params : List (String × String)
  name : String
  examples : List ExampleType
deriving DecidableEq, Repr

/-- The exported stub declaration built by `makeSignature`, before printing. -/
structure FuncSig where
  name : String
  params : List (String × String)
  returnType : TypeNode
deriving DecidableEq, Repr

/-- Result of `makeModuleName`. -/
structure ModuleRef where
  modulePath : String
  moduleName : String
deriving DecidableEq, Repr

/-- Errors aborting a unit's transform.  `missingTypeArgument` and
`unresolvedVariable` are thrown via `throwError`; `undefinedAccess` models
the JavaScript TypeError raised by `template.text` when `arguments[0]` is
out of bounds. -/
inductive TErr where
  | missingTypeArgument
  | unresolvedVariable : String → TErr
  | undefinedAccess
deriving DecidableEq, Repr

/-- The filesystem existence oracle (`fs.existsSync`). -/
structure FS where
  existsSync : String → Bool

/-- External collaborators of the transformer: the template analyzer, the
type-descriptor synthesizer, the name synthesizer, `getIdentifierValue`,
and the narrow slice of the host type checker and printer the transformer
consumes.  `symbolsInScope` lists the names of the variable symbols visible
at the call site; `typeOfSymbol` is the printable static type of such a
symbol; `typeNodeToString` prints the type at a type node. -/
structure Env where
  extractVariables : String → List String
  convertTemplate : String → String
  convertToDynamicType : TypeNode → Expr
  makeTypeDirection : TypeNode → String
  makeExpressionFromString : String → Expr
  generateUniqueFunctionName : String → String
  getIdentifierValue : String → List ExampleType
  symbolsInScope : List String
  typeOfSymbol : String → String
  typeNodeToString : TypeNode → String
  printNode : FuncSig → String

/-- Per-unit traversal context: environment, filesystem and the file name
returned by `node.getSourceFile().fileName` for nodes of this unit. -/
structure Ctx where
  env : Env
  fs : FS
  fileName : String

/-- State threaded through one unit's traversal: the `info` accumulator of
`transformer`, the process-wide `imports` array, and the ghost trace
`visited` of marker call-forms dispatched to a rewrite function. -/
structure TState where
  info : List Info
  imports : List Stmt
  visited : List Expr

/-- The process-wide mutable arrays `functions` and `imports`. -/
structure GState where
  functions : List Stmt
  imports : List Stmt

/-- Characters of the last path component: everything after the last `/`
of the reversed character list. -/
def takeUntilSlash : List Char → List Char
  | [] => []
  | c :: cs => if c = '/' then [] else c :: takeUntilSlash cs

/-- Reversed characters remaining after dropping the last component and
its `/`. -/
def dropUntilSlash : List Char → List Char
  | [] => []
  | c :: cs => if c = '/' then cs else dropUntilSlash cs

/-- Whether a `/` occurs in the path. -/
def hasSlash : List Char → Bool
  | [] => false
  | c :: cs => c = '/' || hasSlash cs

/-- Embeds `path.basename`: the last `/`-separated component. -/
def pathBasename (p : String) : String :=
  String.mk (takeUntilSlash p.toList.reverse).reverse

/-- Embeds `path.dirname`: everything before the last `/`, or `.` when the path
has no directory part. -/
def pathDirname (p : String) : String :=
  if hasSlash p.toList then String.mk (dropUntilSlash p.toList.reverse).reverse
  else "."

/-- Embeds `path.join` for two components. -/
def pathJoin (a b : String) : String := a ++ "/" ++ b

/-- Embeds `ts.isStringLiteralLike`: a string literal or a no-substitution
template literal (both are `Expr.stringLit` in this embedding). -/
def isStringLiteralLike : Expr → Bool
  | .stringLit _ => true
  | _ => false

/-- Embeds `ts.isIdentifier`. -/
def isIdentExpr : Expr → Bool
  | .ident _ => true
  | _ => false

/-- The `escapedText` of an identifier (only applied to identifiers). -/
def identName : Expr → String
  | .ident n => n
  | _ => ""

/-- The `.text` of a string-literal-like node.  The source performs an
unchecked cast `as ts.StringLiteral`; the guard in the rewrite functions
ensures this is only reached on string literals. -/
def stringLitText : Expr → String
  | .stringLit s => s
  | _ => ""

/-- The guard `node.arguments.length > 0 && !ts.isStringLiteralLike(node.arguments[0])`
shared by both rewrite functions. -/
def nonLiteralFirstArg (args : List Expr) : Bool :=
  match args.head? with
  | some a => !(isStringLiteralLike a)
  | none => false

def MODULE_NAME : String := "ts-askit"

/-- Embeds `createRequire(jsName, name, modNames)`: the statement
`const jsName = require(...modNames).name`. -/
def createRequire (jsName : String) (name : String) (modNames : List String) : Stmt :=
  .varConst jsName
    (.propAccess (.call (.ident "require") none (modNames.map .stringLit)) name)

/-- The fixed type-constructor vocabulary of `update`. -/
def typeVocabulary : List String :=
  ["type", "array", "string", "number", "boolean", "object", "union", "literal"]

/-- The shared-module bindings `update` injects, one per vocabulary entry. -/
def requireBindings : List Stmt :=
  typeVocabulary.map fun name =>
    createRequire ("__" ++ name ++ "__") name [(MODULE_NAME ++ "/types")]

/-- Embeds `update(node)`: skip units whose backing file does not exist (unless the
repl pseudo-file), else splice `[...imports, ...requires, ...functions,
...node.statements]` and clear the process-wide accumulators. -/
def update (fs : FS) (gs : GState) (node : SourceFile) : GState × SourceFile :=
  if ¬ fs.existsSync node.fileName ∧ pathBasename node.fileName ≠ "<repl>.ts" then
    (gs, node)
  else
    ({ functions := [], imports := [] },
     { node with statements :=
        gs.imports ++ requireBindings ++ gs.functions ++ node.statements })

/-- Embeds `saveInfo(fileName, info)`: the metadata write, modelled as the value
written — `none` when no records were accumulated, else the sidecar path
`dirname/askit/basename.jsonl` with the records. -/
def saveInfo (fileName : String) (info : List Info) : Option (String × List Info) :=
  if info.length = 0 then none
  else some (pathJoin (pathJoin (pathDirname fileName) "askit")
               (pathBasename fileName ++ ".jsonl"), info)

/-- Embeds `makeModuleName(sourceFileName, name)`. -/
def makeModuleName (sourceFileName : String) (name : String) : ModuleRef :=
  { modulePath := pathJoin (pathJoin (pathDirname sourceFileName) "askit") (name ++ ".ts"),
    moduleName := name }

/-- Embeds `makeCall(moduleName, name, args)`: the call `moduleName_1.name(args)`. -/
def makeCall (moduleName : String) (name : String) (args : List Expr) : Expr :=
  .call (.propAccess (.ident (moduleName ++ "_1")) name) none args

/-- Embeds `makeVariableMapObject(variables)`: the object literal mapping each
variable name to an identifier of the same name. -/
def makeVariableMapObject (vars : List String) : Expr :=
  .objectLit vars (vars.map .ident)

/-- Embeds `makeSignature(name, type, symbols, checker)` before printing: one
parameter per resolved symbol, typed by the checker. -/
def makeSignature (env : Env) (name : String) (ty : TypeNode)
    (symbols : List String) : FuncSig :=
  { name := name,
    params := symbols.map fun s => (s, env.typeOfSymbol s),
    returnType := ty }

/-- Embeds `createTypeExpression`: the legacy type-directive synthesis used by the
define rewrite. -/
def createTypeExpression (env : Env) (ty : TypeNode) : Expr :=
  env.makeExpressionFromString (env.makeTypeDirection ty)

/-- The per-variable scope resolution of `rewriteAskCall` (lines 204-210):
find each template variable among the symbols in scope, throwing
`UnresolvedVariable` at the first name with no matching symbol. -/
def resolveVars (env : Env) : List String → Except TErr (List String)
  | [] => .ok []
  | v :: rest =>
    match env.symbolsInScope.find? (fun s => s == v) with
    | none => .error (.unresolvedVariable v)
    | some s =>
      match resolveVars env rest with
      | .error e => .error e
      | .ok rest' => .ok (s :: rest')

/-- Embeds `rewriteAskCall(info, node, checker)` where `node` is the call-form
`Expr.call callee tyArgs args`.  Mirrors transformer.ts lines 176-275:
guard on a non-literal first argument, require exactly one type argument,
read the template, extract and resolve variables, synthesize the name,
append the metadata record, then branch on generated-module existence
between REDIRECT and INLINE. -/
def rewriteAskCall (C : Ctx) (st : TState) (callee : Expr)
    (tyArgs : Option (List TypeNode)) (args : List Expr) :
    Except TErr (TState × Expr) :=
  if nonLiteralFirstArg args then
    .ok (st, .call callee tyArgs args)
  else
    match tyArgs with
    | some [returnType] =>
      match args.head? with
      | none => .error .undefinedAccess
      | some template =>
        let text := stringLitText template
        -- `vars` is `variables` in the source (a reserved word in Lean)
        let vars := C.env.extractVariables text
        let variableMapObject := makeVariableMapObject vars
        let typeExpression := C.env.convertToDynamicType returnType
        let examplesNode :=
          match args[1]? with
          | some a => a
          | none => Expr.arrayLit []
        match resolveVars C.env vars with
        | .error e => .error e
        | .ok varSymbols =>
          let paramTypeStrings := varSymbols.map C.env.typeOfSymbol
          let returnTypeString := C.env.typeNodeToString returnType
          let name := C.env.generateUniqueFunctionName
            (String.intercalate "_" (text :: (paramTypeStrings ++ [returnTypeString])))
          let callArgs := varSymbols.map Expr.ident
          let decl := makeSignature C.env name returnType varSymbols
          let signature := C.env.printNode decl
          let params := varSymbols.map fun s => (C.env.typeOfSymbol s, s)
          let examples :=
            match args[1]? with
            | some a => if isIdentExpr a then C.env.getIdentifierValue (identName a) else []
            | none => []
          let record : Info :=
            { signature := signature, desc := C.env.convertTemplate text,
              params := params, name := name, examples := examples }
          let st1 := { st with info := st.info ++ [record] }
          let mn := makeModuleName C.fileName name
          if C.fs.existsSync mn.modulePath then
            let importStatement := Stmt.importDecl [name] ("./askit/" ++ mn.moduleName)
            let st2 := { st1 with imports := st1.imports ++ [importStatement] }
            .ok (st2, makeCall mn.moduleName name callArgs)
          else
            .ok (st1, .call callee tyArgs
                  [typeExpression, template, examplesNode, variableMapObject])
    | _ => .error .missingTypeArgument

/-- Embeds `rewriteDefineCall(info, node, checker)` (transformer.ts lines 134-155):
same guards, then prepend the legacy type-directive expression to the
original arguments.  Touches neither the filesystem nor the accumulators. -/
def rewriteDefineCall (C : Ctx) (st : TState) (callee : Expr)
    (tyArgs : Option (List TypeNode)) (args : List Expr) :
    Except TErr (TState × Expr) :=
  if nonLiteralFirstArg args then
    .ok (st, .call callee tyArgs args)
  else
    match tyArgs with
    | some [returnType] =>
      .ok (st, .call callee tyArgs (createTypeExpression C.env returnType :: args))
    | _ => .error .missingTypeArgument

mutual
/-- The `visit` callback of the transformer, on expressions: dispatch a
call expression whose callee is the identifier `llm`/`ask`/`define` to the
matching rewrite (recording it in the ghost trace), otherwise recurse into
the children via `ts.visitEachChild`. -/
def visitExpr (C : Ctx) : TState → Expr → Except TErr (TState × Expr)
  | st, .stringLit s => .ok (st, .stringLit s)
  | st, .ident n => .ok (st, .ident n)
  | st, .arrayLit es =>
    match visitList C st es with
    | .error e => .error e
    | .ok (st', es') => .ok (st', .arrayLit es')
  | st, .objectLit ns vs =>
    match visitList C st vs with
    | .error e => .error e
    | .ok (st', vs') => .ok (st', .objectLit ns vs')
  | st, .propAccess e n =>
    match visitExpr C st e with
    | .error er => .error er
    | .ok (st', e') => .ok (st', .propAccess e' n)
  | st, .call (.ident name) tyArgs args =>
    if name == "llm" || name == "ask" then
      rewriteAskCall C
        { st with visited := st.visited ++ [Expr.call (.ident name) tyArgs args] }
        (.ident name) tyArgs args
    else if name == "define" then
      rewriteDefineCall C
        { st with visited := st.visited ++ [Expr.call (.ident name) tyArgs args] }
        (.ident name) tyArgs args
    else
      match visitList C st args with
      | .error e => .error e
      | .ok (st', args') => .ok (st', .call (.ident name) tyArgs args')
  | st, .call (.stringLit s) tyArgs args =>
    match visitList C st args with
    | .error e => .error e
    | .ok (st', args') => .ok (st', .call (.stringLit s) tyArgs args')
  | st, .call (.arrayLit es) tyArgs args =>
    match visitExpr C st (.arrayLit es) with
    | .error e => .error e
    | .ok (st1, callee') =>
      match visitList C st1 args with
      | .error e => .error e
      | .ok (st2, args') => .ok (st2, .call callee' tyArgs args')
  | st, .call (.objectLit ns vs) tyArgs args =>
    match visitExpr C st (.objectLit ns vs) with
    | .error e => .error e
    | .ok (st1, callee') =>
      match visitList C st1 args with
      | .error e => .error e
      | .ok (st2, args') => .ok (st2, .call callee' tyArgs args')
  | st, .call (.propAccess e n) tyArgs args =>
    match visitExpr C st (.propAccess e n) with
    | .error er => .error er
    | .ok (st1, callee') =>
      match visitList C st1 args with
      | .error er => .error er
      | .ok (st2, args') => .ok (st2, .call callee' tyArgs args')
  | st, .call (.call c ta aa) tyArgs args =>
    match visitExpr C st (.call c ta aa) with
    | .error er => .error er
    | .ok (st1, callee') =>
      match visitList C st1 args with
      | .error er => .error er
      | .ok (st2, args') => .ok (st2, .call callee' tyArgs args')
  | st, .call (.other ch) tyArgs args =>
    match visitExpr C st (.other ch) with
    | .error er => .error er
    | .ok (st1, callee') =>
      match visitList C st1 args with
      | .error er => .error er
      | .ok (st2, args') => .ok (st2, .call callee' tyArgs args')
  | st, .other es =>
    match visitList C st es with
    | .error e => .error e
    | .ok (st', es') => .ok (st', .other es')

/-- The `visit` callback mapped over a child list, threading state left to right and
stopping at the first error. -/
def visitList (C : Ctx) : TState → List Expr → Except TErr (TState × List Expr)
  | st, [] => .ok (st, [])
  | st, e :: es =>
    match visitExpr C st e with
    | .error er => .error er
    | .ok (st1, e') =>
      match visitList C st1 es with
      | .error er => .error er
      | .ok (st2, es') => .ok (st2, e' :: es')
end

/-- The `visit` callback on one top-level statement: statements are never
call expressions, so `visit` recurses into their expression children. -/
def visitStmt (C : Ctx) (st : TState) : Stmt → Except TErr (TState × Stmt)
  | .importDecl ns m => .ok (st, .importDecl ns m)
  | .varConst n init =>
    match visitExpr C st init with
    | .error er => .error er
    | .ok (st', init') => .ok (st', .varConst n init')
  | .exprStmt e =>
    match visitExpr C st e with
    | .error er => .error er
    | .ok (st', e') => .ok (st', .exprStmt e')
  | .other t => .ok (st, .other t)

/-- Embeds `ts.visitEachChild(file, visit, context)`: visit every top-level
statement of the unit in order. -/
def visitStmts (C : Ctx) : TState → List Stmt → Except TErr (TState × List Stmt)
  | st, [] => .ok (st, [])
  | st, s :: ss =>
    match visitStmt C st s with
    | .error er => .error er
    | .ok (st1, s') =>
      match visitStmts C st1 ss with
      | .error er => .error er
      | .ok (st2, ss') => .ok (st2, s' :: ss')

/-- The exported `transformer(program)` applied to one source unit:
traverse the unit with a fresh `info` accumulator, flush the metadata
sidecar, then `update` the statement list.  Returns the transformed unit,
the metadata write (if any) and the final process-wide accumulator state. -/
def transformer (env : Env) (fs : FS) (gs : GState) (file : SourceFile) :
    Except TErr (SourceFile × Option (String × List Info) × GState) :=
  let C : Ctx := { env := env, fs := fs, fileName := file.fileName }
  match visitStmts C { info := [], imports := gs.imports, visited := [] }
      file.statements with
  | .error er => .error er
  | .ok (st, stmts') =>
    let x : SourceFile := { file with statements := stmts' }
    let write := saveInfo file.fileName st.info
    let (gs', result) := update fs { functions := gs.functions, imports := st.imports } x
    .ok (result, write, gs')

/-! ## Specification-side definitions

Marker counting and the declarative dispatch trace, used to state the
visit-once invariant; they are not part of the embedded program. -/

/-- A callee identifier name the traversal dispatches on
(`llm`/`ask` to the ask rewrite, `define` to the define rewrite). -/
def isMarkerName (n : String) : Bool :=
  n == "llm" || n == "ask" || n == "define"

mutual
/-- Number of marker call-forms occurring anywhere in an expression,
including ones nested inside another marker call-form's arguments. -/
def countMarkers : Expr → Nat
  | .stringLit _ => 0
  | .ident _ => 0
  | .arrayLit es => countMarkersList es
  | .objectLit _ vs => countMarkersList vs
  | .propAccess e _ => countMarkers e
  | .call (.ident n) _ args =>
      (if isMarkerName n then 1 else 0) + countMarkersList args
  | .call (.stringLit _) _ args => countMarkersList args
  | .call (.arrayLit es) _ args => countMarkers (.arrayLit es) + countMarkersList args
  | .call (.objectLit ns vs) _ args =>
      countMarkers (.objectLit ns vs) + countMarkersList args
  | .call (.propAccess e n) _ args =>
      countMarkers (.propAccess e n) + countMarkersList args
  | .call (.call c ta aa) _ args => countMarkers (.call c ta aa) + countMarkersList args
  | .call (.other ch) _ args => countMarkers (.other ch) + countMarkersList args
  | .other es => countMarkersList es

/-- Value of `countMarkers` summed over a list of children. -/
def countMarkersList : List Expr → Nat
  | [] => 0
  | e :: es => countMarkers e + countMarkersList es
end

mutual
/-- The outermost marker call-forms of an expression in traversal order:
the marker call-forms not nested inside another marker call-form's
arguments.  This is the declarative description of which call-forms the
traversal dispatches to a rewrite. -/
def topMarkers : Expr → List Expr
  | .stringLit _ => []
  | .ident _ => []
  | .arrayLit es => topMarkersList es
  | .objectLit _ vs => topMarkersList vs
  | .propAccess e _ => topMarkers e
  | .call (.ident n) ty args =>
      if isMarkerName n then [.call (.ident n) ty args] else topMarkersList args
  | .call (.stringLit _) _ args => topMarkersList args
  | .call (.arrayLit es) _ args => topMarkers (.arrayLit es) ++ topMarkersList args
  | .call (.objectLit ns vs) _ args =>
      topMarkers (.objectLit ns vs) ++ topMarkersList args
  | .call (.propAccess e n) _ args =>
      topMarkers (.propAccess e n) ++ topMarkersList args
  | .call (.call c ta aa) _ args => topMarkers (.call c ta aa) ++ topMarkersList args
  | .call (.other ch) _ args => topMarkers (.other ch) ++ topMarkersList args
  | .other es => topMarkersList es

/-- Value of `topMarkers` concatenated over a list of children. -/
def topMarkersList : List Expr → List Expr
  | [] => []
  | e :: es => topMarkers e ++ topMarkersList es
end

/-- Marker call-forms contained in one statement. -/
def countMarkersStmt : Stmt → Nat
  | .importDecl _ _ => 0
  | .varConst _ e => countMarkers e
  | .exprStmt e => countMarkers e
  | .other _ => 0

/-- Marker call-forms contained in a statement list. -/
def countMarkersStmts : List Stmt → Nat
  | [] => 0
  | s :: ss => countMarkersStmt s + countMarkersStmts ss

/-- Outermost marker call-forms of one statement, in traversal order. -/
def topMarkersStmt : Stmt → List Expr
  | .importDecl _ _ => []
  | .varConst _ e => topMarkers e
  | .exprStmt e => topMarkers e
  | .other _ => []

/-- Outermost marker call-forms of a statement list, in traversal order. -/
def topMarkersStmts : List Stmt → List Expr
  | [] => []
  | s :: ss => topMarkersStmt s ++ topMarkersStmts ss

/-- Verification-side repackaging of `rewriteAskCall`: the appended
metadata records, the appended import declarations, and the replacement
expression as a function of the call-form alone.  `rewriteAskCall_eq`
proves the embedding equal to this delta applied to the incoming state;
it witnesses that a rewrite neither observes nor depends on previously
accumulated state. -/
def askRewriteDelta (C : Ctx) (callee : Expr) (tyArgs : Option (List TypeNode))
    (args : List Expr) : Except TErr (List Info × List Stmt × Expr) :=
  if nonLiteralFirstArg args then
    .ok ([], [], .call callee tyArgs args)
  else
    match tyArgs with
    | some [returnType] =>
      match args.head? with
      | none => .error .undefinedAccess
      | some template =>
        let text := stringLitText template
        let vars := C.env.extractVariables text
        let variableMapObject := makeVariableMapObject vars
        let typeExpression := C.env.convertToDynamicType returnType
        let examplesNode :=
          match args[1]? with
          | some a => a
          | none => Expr.arrayLit []
        match resolveVars C.env vars with
        | .error e => .error e
        | .ok varSymbols =>
          let paramTypeStrings := varSymbols.map C.env.typeOfSymbol
          let returnTypeString := C.env.typeNodeToString returnType
          let name := C.env.generateUniqueFunctionName
            (String.intercalate "_" (text :: (paramTypeStrings ++ [returnTypeString])))
          let callArgs := varSymbols.map Expr.ident
          let decl := makeSignature C.env name returnType varSymbols
          let signature := C.env.printNode decl
          let params := varSymbols.map fun s => (C.env.typeOfSymbol s, s)
          let examples :=
            match args[1]? with
            | some a => if isIdentExpr a then C.env.getIdentifierValue (identName a) else []
            | none => []
          let record : Info :=
            { signature := signature, desc := C.env.convertTemplate text,
              params := params, name := name, examples := examples }
          let mn := makeModuleName C.fileName name
          if C.fs.existsSync mn.modulePath then
            .ok ([record], [Stmt.importDecl [name] ("./askit/" ++ mn.moduleName)],
                 makeCall mn.moduleName name callArgs)
          else
            .ok ([record], [], .call callee tyArgs
                  [typeExpression, template, examplesNode, variableMapObject])
    | _ => .error .missingTypeArgument

/-- The examples argument forwarded to an INLINE rewrite (transformer.ts
lines 197-200): the original second argument, or an empty array literal
when fewer than two arguments were given.  `rest` is the argument list
after the template. -/
def examplesNodeOf (rest : List Expr) : Expr :=
  match rest with
  | a :: _ => a
  | [] => .arrayLit []

/-- The examples field recorded in the metadata (transformer.ts lines
231-235): the looked-up identifier value when the second argument is a
bare identifier, the empty list otherwise. -/
def examplesOf (env : Env) (rest : List Expr) : List ExampleType :=
  match rest with
  | a :: _ => if isIdentExpr a then env.getIdentifierValue (identName a) else []
  | [] => []

/-- The synthesized function name of an ask call (transformer.ts lines
221-223): the hash of template text, parameter type strings and return
type string joined by underscores. -/
def askName (env : Env) (text : String) (varSyms : List String) (t : TypeNode) : String :=
  env.generateUniqueFunctionName (String.intercalate "_"
    (text :: (varSyms.map env.typeOfSymbol ++ [env.typeNodeToString t])))

/-- The metadata record pushed for an ask call (transformer.ts lines
236-242). -/
def askRecord (env : Env) (text : String) (varSyms : List String) (t : TypeNode)
    (rest : List Expr) : Info :=
  { signature := env.printNode (makeSignature env (askName env text varSyms t) t varSyms),
    desc := env.convertTemplate text,
    params := varSyms.map fun s => (env.typeOfSymbol s, s),
    name := askName env text varSyms t,
    examples := examplesOf env rest }

/-! ## Concrete instances used by witnesses and counterexamples -/

/-- A concrete environment: template `t` has the variables `x` and `y`,
every other template has none; names, descriptions, types and signatures
are printed with distinguishing prefixes. -/
def sampleEnv : Env where
  extractVariables := fun s => if s == "t" then ["x", "y"] else []
  convertTemplate := fun s => s ++ "!"
  convertToDynamicType := fun n => .ident ("dyn" ++ toString n)
  makeTypeDirection := fun n => "dir" ++ toString n
  makeExpressionFromString := fun s => .ident s
  generateUniqueFunctionName := fun s => "fn_" ++ s
  getIdentifierValue := fun n => ["val_" ++ n]
  symbolsInScope := ["x", "y", "z"]
  typeOfSymbol := fun s => "T" ++ s
  typeNodeToString := fun n => "R" ++ toString n
  printNode := fun sig => "sig_" ++ sig.name

/-- A filesystem on which no path exists. -/
def fsNone : FS := ⟨fun _ => false⟩

/-- A filesystem on which every path exists. -/
def fsAll : FS := ⟨fun _ => true⟩

/-- A filesystem on which exactly `main.ts` exists. -/
def fsMain : FS := ⟨fun p => p == "main.ts"⟩

/-- Context over `sampleEnv` with no file on disk. -/
def sampleCtx : Ctx := { env := sampleEnv, fs := fsNone, fileName := "main.ts" }

/-- Context over `sampleEnv` with every file on disk. -/
def sampleCtxAll : Ctx := { env := sampleEnv, fs := fsAll, fileName := "main.ts" }

/-- The empty traversal state. -/
def st0 : TState := { info := [], imports := [], visited := [] }

/-- The empty process-wide accumulator state. -/
def gs0 : GState := { functions := [], imports := [] }

/-- A concrete ask call-form: `ask<7>("t")`. -/
def askNode : Expr := .call (.ident "ask") (some [7]) [.stringLit "t"]

/-- An ask call-form with another marker call-form nested in its second
argument: `ask<7>("t", llm<7>("u"))`. -/
def nestedAsk : Expr :=
  .call (.ident "ask") (some [7]) [.stringLit "t", .call (.ident "llm") (some [7]) [.stringLit "u"]]

/-- A source unit whose backing file `gen.ts` is absent from `fsNone`. -/
def genFile : SourceFile := { fileName := "gen.ts", statements := [.exprStmt askNode] }

/-- A source unit whose backing file `main.ts` exists on `fsMain`. -/
def mainFile : SourceFile := { fileName := "main.ts", statements := [.exprStmt askNode] }

/-! ## Helper lemmas -/

/-- If the first argument, when present, is a string literal, the shared
guard does not fire. -/
theorem nonLiteralFirstArg_false (args : List Expr)
    (h : ∀ a, args.head? = some a → isStringLiteralLike a = true) :
    nonLiteralFirstArg args = false := by
  unfold nonLiteralFirstArg
  cases hh : args.head? with
  | none => rfl
  | some a => simp [h a hh]

/-- Scope resolution, when it succeeds, returns exactly the queried
variable names (each symbol is found by name equality). -/
theorem resolveVars_ok_eq (env : Env) :
    ∀ (vs ws : List String), resolveVars env vs = .ok ws → ws = vs
  | [], ws, h => by
      simp only [resolveVars] at h
      cases h
      rfl
  | v :: rest, ws, h => by
      simp only [resolveVars] at h
      cases hf : env.symbolsInScope.find? (fun s => s == v) with
      | none => rw [hf] at h; exact Except.noConfusion h
      | some s =>
        rw [hf] at h
        cases hr : resolveVars env rest with
        | error e => rw [hr] at h; exact Except.noConfusion h
        | ok rest' =>
          rw [hr] at h
          cases h
          have heq : rest' = rest := resolveVars_ok_eq env rest rest' hr
          have hs : s = v := by
            have hfs := List.find?_some hf
            simpa using hfs
          rw [heq, hs]

/-- The ask rewrite is its state-independent delta applied to the incoming
state: the replacement expression and the appended records and imports are
functions of the call-form (and environment) alone. -/
theorem rewriteAskCall_eq (C : Ctx) (st : TState) (c : Expr)
    (ty : Option (List TypeNode)) (args : List Expr) :
    rewriteAskCall C st c ty args =
      (askRewriteDelta C c ty args).map fun d =>
        ({ st with info := st.info ++ d.1, imports := st.imports ++ d.2.1 }, d.2.2) := by
  simp only [rewriteAskCall, askRewriteDelta]
  repeat' split
  all_goals simp [Except.map]

/-- A successful ask rewrite never changes the ghost dispatch trace. -/
theorem rewriteAskCall_visited (C : Ctx) (st : TState) (c : Expr)
    (ty : Option (List TypeNode)) (args : List Expr) (p : TState × Expr)
    (h : rewriteAskCall C st c ty args = .ok p) : p.1.visited = st.visited := by
  rw [rewriteAskCall_eq] at h
  cases hd : askRewriteDelta C c ty args with
  | error e => rw [hd] at h; exact Except.noConfusion h
  | ok d => rw [hd] at h; cases h; rfl

/-- A successful define rewrite returns the incoming state unchanged. -/
theorem rewriteDefineCall_state (C : Ctx) (st : TState) (c : Expr)
    (ty : Option (List TypeNode)) (args : List Expr) (p : TState × Expr)
    (h : rewriteDefineCall C st c ty args = .ok p) : p.1 = st := by
  simp only [rewriteDefineCall] at h
  split at h
  · cases h; rfl
  · split at h
    · cases h; rfl
    · exact Except.noConfusion h

mutual
/-- After a successful traversal of an expression, the ghost dispatch
trace has grown by exactly the outermost marker call-forms, in order. -/
theorem visitExpr_visited (C : Ctx) :
    ∀ (st : TState) (e : Expr) (p : TState × Expr),
      visitExpr C st e = Except.ok p → p.1.visited = st.visited ++ topMarkers e
  | st, .stringLit s, p, h => by
      simp only [visitExpr] at h
      cases h
      simp [topMarkers]
  | st, .ident n, p, h => by
      simp only [visitExpr] at h
      cases h
      simp [topMarkers]
  | st, .arrayLit es, p, h => by
      simp only [visitExpr] at h
      cases hv : visitList C st es with
      | error er => rw [hv] at h; exact Except.noConfusion h
      | ok q =>
        rw [hv] at h
        obtain ⟨st', es'⟩ := q
        cases h
        have ih := visitList_visited C st es (st', es') hv
        simpa [topMarkers] using ih
  | st, .objectLit ns vs, p, h => by
      simp only [visitExpr] at h
      cases hv : visitList C st vs with
      | error er => rw [hv] at h; exact Except.noConfusion h
      | ok q =>
        rw [hv] at h
        obtain ⟨st', vs'⟩ := q
        cases h
        have ih := visitList_visited C st vs (st', vs') hv
        simpa [topMarkers] using ih
  | st, .propAccess e n, p, h => by
      simp only [visitExpr] at h
      cases hv : visitExpr C st e with
      | error er => rw [hv] at h; exact Except.noConfusion h
      | ok q =>
        rw [hv] at h
        obtain ⟨st', e'⟩ := q
        cases h
        have ih := visitExpr_visited C st e (st', e') hv
        simpa [topMarkers] using ih
  | st, .call (.ident name) tyArgs args, p, h => by
      simp only [visitExpr] at h
      split at h
      · rename_i hask
        have hv := rewriteAskCall_visited C _ (.ident name) tyArgs args p h
        have hm : isMarkerName name = true := by
          simp only [isMarkerName, Bool.or_eq_true] at hask ⊢
          tauto
        simp [topMarkers, hm, hv]
      · split at h
        · rename_i hnask hdef
          have hv := rewriteDefineCall_state C _ (.ident name) tyArgs args p h
          have hm : isMarkerName name = true := by
            simp only [isMarkerName, Bool.or_eq_true] at hdef ⊢
            tauto
          rw [hv]
          simp [topMarkers, hm]
        · rename_i hnask hndef
          cases hv : visitList C st args with
          | error er => rw [hv] at h; exact Except.noConfusion h
          | ok q =>
            rw [hv] at h
            obtain ⟨st', args'⟩ := q
            cases h
            have ih := visitList_visited C st args (st', args') hv
            have hm : isMarkerName name = false := by
              simp only [isMarkerName]
              simp only [Bool.or_eq_true] at hnask hndef
              simp only [Bool.or_eq_false_iff]
              constructor
              · constructor
                · cases hll : name == "llm" with
                  | true => exact absurd (Or.inl hll) hnask
                  | false => rfl
                · cases haa : name == "ask" with
                  | true => exact absurd (Or.inr haa) hnask
                  | false => rfl
              · cases hdd : name == "define" with
                | true => exact absurd hdd hndef
                | false => rfl
            simpa [topMarkers, hm] using ih
  | st, .call (.stringLit s) tyArgs args, p, h => by
      simp only [visitExpr] at h
      cases hv : visitList C st args with
      | error er => rw [hv] at h; exact Except.noConfusion h
      | ok q =>
        rw [hv] at h
        obtain ⟨st', args'⟩ := q
        cases h
        have ih := visitList_visited C st args (st', args') hv
        simpa [topMarkers] using ih
  | st, .call (.arrayLit ces) tyArgs args, p, h => by
      rw [visitExpr] at h
      split at h
      · exact Except.noConfusion h
      · rename_i st1 callee' hc
        split at h
        · exact Except.noConfusion h
        · rename_i st2 args' hl
          cases h
          have ih1 := visitExpr_visited C st (.arrayLit ces) (st1, callee') hc
          have ih2 := visitList_visited C st1 args (st2, args') hl
          dsimp only at ih1 ih2
          rw [ih2, ih1]
          simp [topMarkers, List.append_assoc]
  | st, .call (.objectLit ns vs) tyArgs args, p, h => by
      rw [visitExpr] at h
      split at h
      · exact Except.noConfusion h
      · rename_i st1 callee' hc
        split at h
        · exact Except.noConfusion h
        · rename_i st2 args' hl
          cases h
          have ih1 := visitExpr_visited C st (.objectLit ns vs) (st1, callee') hc
          have ih2 := visitList_visited C st1 args (st2, args') hl
          dsimp only at ih1 ih2
          rw [ih2, ih1]
          simp [topMarkers, List.append_assoc]
  | st, .call (.propAccess ce n) tyArgs args, p, h => by
      rw [visitExpr] at h
      split at h
      · exact Except.noConfusion h
      · rename_i st1 callee' hc
        split at h
        · exact Except.noConfusion h
        · rename_i st2 args' hl
          cases h
          have ih1 := visitExpr_visited C st (.propAccess ce n) (st1, callee') hc
          have ih2 := visitList_visited C st1 args (st2, args') hl
          dsimp only at ih1 ih2
          rw [ih2, ih1]
          simp [topMarkers, List.append_assoc]
  | st, .call (.call cc ta aa) tyArgs args, p, h => by
      rw [visitExpr] at h
      split at h
      · exact Except.noConfusion h
      · rename_i st1 callee' hc
        split at h
        · exact Except.noConfusion h
        · rename_i st2 args' hl
          cases h
          have ih1 := visitExpr_visited C st (.call cc ta aa) (st1, callee') hc
          have ih2 := visitList_visited C st1 args (st2, args') hl
          dsimp only at ih1 ih2
          rw [ih2, ih1]
          simp [topMarkers, List.append_assoc]
  | st, .call (.other ch) tyArgs args, p, h => by
      rw [visitExpr] at h
      split at h
      · exact Except.noConfusion h
      · rename_i st1 callee' hc
        split at h
        · exact Except.noConfusion h
        · rename_i st2 args' hl
          cases h
          have ih1 := visitExpr_visited C st (.other ch) (st1, callee') hc
          have ih2 := visitList_visited C st1 args (st2, args') hl
          dsimp only at ih1 ih2
          rw [ih2, ih1]
          simp [topMarkers, List.append_assoc]
  | st, .other es, p, h => by
      simp only [visitExpr] at h
      cases hv : visitList C st es with
      | error er => rw [hv] at h; exact Except.noConfusion h
      | ok q =>
        rw [hv] at h
        obtain ⟨st', es'⟩ := q
        cases h
        have ih := visitList_visited C st es (st', es') hv
        simpa [topMarkers] using ih

/-- List version of `visitExpr_visited`. -/
theorem visitList_visited (C : Ctx) :
    ∀ (st : TState) (es : List Expr) (p : TState × List Expr),
      visitList C st es = Except.ok p → p.1.visited = st.visited ++ topMarkersList es
  | st, [], p, h => by
      simp only [visitList] at h
      cases h
      simp [topMarkersList]
  | st, e :: es, p, h => by
      rw [visitList] at h
      split at h
      · exact Except.noConfusion h
      · rename_i st1 e' h1
        split at h
        · exact Except.noConfusion h
        · rename_i st2 es' h2
          cases h
          have ih1 := visitExpr_visited C st e (st1, e') h1
          have ih2 := visitList_visited C st1 es (st2, es') h2
          dsimp only at ih1 ih2
          rw [ih2, ih1]
          simp [topMarkersList, List.append_assoc]
end

mutual
/-- An expression containing no marker call-form traverses to itself with
the state unchanged. -/
theorem visitExpr_noMarkers (C : Ctx) :
    ∀ (st : TState) (e : Expr), countMarkers e = 0 → visitExpr C st e = .ok (st, e)
  | st, .stringLit s, _ => by simp [visitExpr]
  | st, .ident n, _ => by simp [visitExpr]
  | st, .arrayLit es, h => by
      have hl := visitList_noMarkers C st es (by simpa [countMarkers] using h)
      rw [visitExpr]
      simp [hl]
  | st, .objectLit ns vs, h => by
      have hl := visitList_noMarkers C st vs (by simpa [countMarkers] using h)
      rw [visitExpr]
      simp [hl]
  | st, .propAccess e n, h => by
      have he := visitExpr_noMarkers C st e (by simpa [countMarkers] using h)
      rw [visitExpr]
      simp [he]
  | st, .call (.ident name) tyArgs args, h => by
      simp only [countMarkers] at h
      have hm : isMarkerName name = false := by
        cases hmn : isMarkerName name with
        | false => rfl
        | true => rw [hmn] at h; simp at h
      have hargs : countMarkersList args = 0 := by
        rw [hm] at h; simpa using h
      simp only [isMarkerName] at hm
      simp only [Bool.or_eq_false_iff, beq_eq_false_iff_ne, ne_eq] at hm
      have hb1 : (name == "llm" || name == "ask") = false := by
        simp only [Bool.or_eq_false_iff, beq_eq_false_iff_ne, ne_eq]
        exact hm.1
      have hb2 : (name == "define") = false := by
        simp only [beq_eq_false_iff_ne, ne_eq]
        exact hm.2
      have hl := visitList_noMarkers C st args hargs
      rw [visitExpr]
      simp [hb1, hb2, hl]
  | st, .call (.stringLit s) tyArgs args, h => by
      have hl := visitList_noMarkers C st args (by simpa [countMarkers] using h)
      rw [visitExpr]
      simp [hl]
  | st, .call (.arrayLit ces) tyArgs args, h => by
      simp only [countMarkers] at h
      have hc := visitExpr_noMarkers C st (.arrayLit ces)
        (by simp only [countMarkers]; omega)
      have ha := visitList_noMarkers C st args (by omega)
      rw [visitExpr]
      simp [hc, ha]
  | st, .call (.objectLit ns vs) tyArgs args, h => by
      simp only [countMarkers] at h
      have hc := visitExpr_noMarkers C st (.objectLit ns vs)
        (by simp only [countMarkers]; omega)
      have ha := visitList_noMarkers C st args (by omega)
      rw [visitExpr]
      simp [hc, ha]
  | st, .call (.propAccess ce n) tyArgs args, h => by
      simp only [countMarkers] at h
      have hc := visitExpr_noMarkers C st (.propAccess ce n)
        (by simp only [countMarkers]; omega)
      have ha := visitList_noMarkers C st args (by omega)
      rw [visitExpr]
      simp [hc, ha]
  | st, .call (.call cc ta aa) tyArgs args, h => by
      simp only [countMarkers] at h
      have hc := visitExpr_noMarkers C st (.call cc ta aa) (by omega)
      have ha := visitList_noMarkers C st args (by omega)
      rw [visitExpr]
      simp [hc, ha]
  | st, .call (.other ch) tyArgs args, h => by
      simp only [countMarkers] at h
      have hc := visitExpr_noMarkers C st (.other ch)
        (by simp only [countMarkers]; omega)
      have ha := visitList_noMarkers C st args (by omega)
      rw [visitExpr]
      simp [hc, ha]
  | st, .other es, h => by
      have hl := visitList_noMarkers C st es (by simpa [countMarkers] using h)
      rw [visitExpr]
      simp [hl]

/-- List version of `visitExpr_noMarkers`. -/
theorem visitList_noMarkers (C : Ctx) :
    ∀ (st : TState) (es : List Expr),
      countMarkersList es = 0 → visitList C st es = .ok (st, es)
  | st, [], _ => by simp [visitList]
  | st, e :: es, h => by
      simp only [countMarkersList] at h
      have h1 := visitExpr_noMarkers C st e (by omega)
      have h2 := visitList_noMarkers C st es (by omega)
      rw [visitList]
      simp [h1, h2]
end

/-- Statement version of `visitExpr_visited`. -/
theorem visitStmt_visited (C : Ctx) (st : TState) (s : Stmt) (p : TState × Stmt)
    (h : visitStmt C st s = .ok p) : p.1.visited = st.visited ++ topMarkersStmt s := by
  cases s with
  | importDecl ns m =>
      simp only [visitStmt] at h
      cases h
      simp [topMarkersStmt]
  | varConst n init =>
      simp only [visitStmt] at h
      split at h
      · exact Except.noConfusion h
      · rename_i st1 init1 hv
        cases h
        have ih := visitExpr_visited C st init (st1, init1) hv
        simpa [topMarkersStmt] using ih
  | exprStmt e =>
      simp only [visitStmt] at h
      split at h
      · exact Except.noConfusion h
      · rename_i st1 e1 hv
        cases h
        have ih := visitExpr_visited C st e (st1, e1) hv
        simpa [topMarkersStmt] using ih
  | other t =>
      simp only [visitStmt] at h
      cases h
      simp [topMarkersStmt]

/-- Statement-list version of `visitExpr_visited`: after a successful unit
traversal, the dispatch trace has grown by exactly the outermost marker
call-forms of the unit, in traversal order. -/
theorem visitStmts_visited (C : Ctx) :
    ∀ (st : TState) (ss : List Stmt) (p : TState × List Stmt),
      visitStmts C st ss = .ok p → p.1.visited = st.visited ++ topMarkersStmts ss
  | st, [], p, h => by
      simp only [visitStmts] at h
      cases h
      simp [topMarkersStmts]
  | st, s :: ss, p, h => by
      rw [visitStmts] at h
      split at h
      · exact Except.noConfusion h
      · rename_i st1 s1 h1
        split at h
        · exact Except.noConfusion h
        · rename_i st2 ss2 h2
          cases h
          have ih1 := visitStmt_visited C st s (st1, s1) h1
          have ih2 := visitStmts_visited C st1 ss (st2, ss2) h2
          dsimp only at ih1 ih2
          rw [ih2, ih1]
          simp [topMarkersStmts, List.append_assoc]

/-- Statement version of `visitExpr_noMarkers`. -/
theorem visitStmt_noMarkers (C : Ctx) (st : TState) (s : Stmt)
    (h : countMarkersStmt s = 0) : visitStmt C st s = .ok (st, s) := by
  cases s with
  | importDecl ns m => simp [visitStmt]
  | varConst n init =>
      have hv := visitExpr_noMarkers C st init (by simpa [countMarkersStmt] using h)
      rw [visitStmt]
      simp [hv]
  | exprStmt e =>
      have hv := visitExpr_noMarkers C st e (by simpa [countMarkersStmt] using h)
      rw [visitStmt]
      simp [hv]
  | other t => simp [visitStmt]

/-- A unit without marker call-forms traverses to itself unchanged. -/
theorem visitStmts_noMarkers (C : Ctx) :
    ∀ (st : TState) (ss : List Stmt),
      countMarkersStmts ss = 0 → visitStmts C st ss = .ok (st, ss)
  | st, [], _ => by simp [visitStmts]
  | st, s :: ss, h => by
      simp only [countMarkersStmts] at h
      have h1 := visitStmt_noMarkers C st s (by omega)
      have h2 := visitStmts_noMarkers C st ss (by omega)
      rw [visitStmts]
      simp [h1, h2]

/-- Traversal preserves the number and relative order of the unit's
top-level statements (each statement maps to exactly one statement). -/
theorem visitStmts_length (C : Ctx) :
    ∀ (st : TState) (ss : List Stmt) (p : TState × List Stmt),
      visitStmts C st ss = .ok p → p.2.length = ss.length
  | st, [], p, h => by
      simp only [visitStmts] at h
      cases h
      rfl
  | st, s :: ss, p, h => by
      rw [visitStmts] at h
      split at h
      · exact Except.noConfusion h
      · rename_i st1 s1 h1
        split at h
        · exact Except.noConfusion h
        · rename_i st2 ss2 h2
          cases h
          have ih := visitStmts_length C st1 ss (st2, ss2) h2
          simpa using ih

/-- Scope resolution only ever fails with an `UnresolvedVariable` error. -/
theorem resolveVars_error_shape (env : Env) :
    ∀ (vs : List String) (e : TErr), resolveVars env vs = .error e →
      ∃ v, e = .unresolvedVariable v
  | [], e, h => by simp only [resolveVars] at h; exact Except.noConfusion h
  | v :: rest, e, h => by
      simp only [resolveVars] at h
      cases hf : env.symbolsInScope.find? (fun s => s == v) with
      | none => rw [hf] at h; cases h; exact ⟨v, rfl⟩
      | some s =>
        rw [hf] at h
        cases hr : resolveVars env rest with
        | error e2 =>
          rw [hr] at h
          cases h
          exact resolveVars_error_shape env rest e hr
        | ok rest2 => rw [hr] at h; exact Except.noConfusion h

/-- With a passing first-argument guard and a type-argument list that is
not a singleton, the ask rewrite raises `MissingTypeArgument`. -/
theorem rewriteAskCall_missing_of_not_single (C : Ctx) (st : TState) (c : Expr)
    (tyArgs : Option (List TypeNode)) (args : List Expr)
    (hg : nonLiteralFirstArg args = false) (h : ∀ t, tyArgs ≠ some [t]) :
    rewriteAskCall C st c tyArgs args = .error .missingTypeArgument := by
  rw [rewriteAskCall.eq_def, if_neg (by simp [hg])]
  split
  · rename_i x rt
    exact absurd rfl (h rt)
  · rfl

/-- With a passing first-argument guard and exactly one type argument, the
ask rewrite never raises `MissingTypeArgument`. -/
theorem rewriteAskCall_ne_missing_of_single (C : Ctx) (st : TState) (c : Expr)
    (t : TypeNode) (args : List Expr) (hg : nonLiteralFirstArg args = false) :
    rewriteAskCall C st c (some [t]) args ≠ .error .missingTypeArgument := by
  intro hcon
  rw [rewriteAskCall.eq_def, if_neg (by simp [hg])] at hcon
  dsimp only at hcon
  repeat' split at hcon
  all_goals first
    | exact Except.noConfusion hcon
    | (rename_i e2 hres
       obtain ⟨v, hv⟩ := resolveVars_error_shape C.env _ e2 hres
       injection hcon with h3
       rw [hv] at h3
       exact TErr.noConfusion h3)
    | (injection hcon with h3
       exact TErr.noConfusion h3)

/-- With a passing first-argument guard and exactly one type argument, the
define rewrite succeeds and prepends the legacy type-directive expression
to the original arguments, leaving the state untouched. -/
theorem rewriteDefineCall_single (C : Ctx) (st : TState) (c : Expr)
    (t : TypeNode) (args : List Expr) (hg : nonLiteralFirstArg args = false) :
    rewriteDefineCall C st c (some [t]) args
      = .ok (st, .call c (some [t]) (createTypeExpression C.env t :: args)) := by
  rw [rewriteDefineCall.eq_def, if_neg (by simp [hg])]

/-- With a passing first-argument guard and a type-argument list that is
not a singleton, the define rewrite raises `MissingTypeArgument`. -/
theorem rewriteDefineCall_missing_of_not_single (C : Ctx) (st : TState) (c : Expr)
    (tyArgs : Option (List TypeNode)) (args : List Expr)
    (hg : nonLiteralFirstArg args = false) (h : ∀ t, tyArgs ≠ some [t]) :
    rewriteDefineCall C st c tyArgs args = .error .missingTypeArgument := by
  rw [rewriteDefineCall.eq_def, if_neg (by simp [hg])]
  split
  · rename_i x rt
    exact absurd rfl (h rt)
  · rfl

/-! ## Claim theorems -/

/-- Claim C7: for every marker call-form (ask/llm or define) whose first
argument, if present, is a string literal, the rewrite raises the
`MissingTypeArgument` hard error if and only if the call-form does not have
exactly one type argument — absence (`none`), an empty list, and plural
lists all raise it, and a singleton never does. -/
theorem claim_C7_missing_type_argument_iff (C : Ctx) (st : TState) (c : Expr)
    (tyArgs : Option (List TypeNode)) (args : List Expr)
    (hlit : ∀ a, args.head? = some a → isStringLiteralLike a = true) :
    (rewriteAskCall C st c tyArgs args = .error .missingTypeArgument
        ↔ ∀ t, tyArgs ≠ some [t])
  ∧ (rewriteDefineCall C st c tyArgs args = .error .missingTypeArgument
        ↔ ∀ t, tyArgs ≠ some [t]) := by
  have hg := nonLiteralFirstArg_false args hlit
  constructor
  · constructor
    · intro he t hty
      subst hty
      exact rewriteAskCall_ne_missing_of_single C st c t args hg he
    · intro hns
      exact rewriteAskCall_missing_of_not_single C st c tyArgs args hg hns
  · constructor
    · intro he t hty
      subst hty
      rw [rewriteDefineCall_single C st c t args hg] at he
      exact Except.noConfusion he
    · intro hns
      exact rewriteDefineCall_missing_of_not_single C st c tyArgs args hg hns

/-- Witness for C7: `ask("t")` with no type argument raises
`MissingTypeArgument` (and the hypothesis holds: the first argument is a
string literal). -/
theorem claim_C7_witness :
    rewriteAskCall sampleCtx st0 (.ident "ask") none [.stringLit "t"]
      = .error .missingTypeArgument :=
  (claim_C7_missing_type_argument_iff sampleCtx st0 (.ident "ask") none
      [.stringLit "t"] (fun a ha => by cases ha; rfl)).1.2
    (fun t h => Option.noConfusion h)

/-- Claim C8: a marker call-form (ask/llm or define) whose first positional
argument is present and is not a string literal is returned unchanged by the
traversal: no error, no metadata record, no prologue addition, whatever its
type arguments (only the ghost dispatch trace notes the visit). -/
theorem claim_C8_nonliteral_passthrough (C : Ctx) (st : TState) (name : String)
    (tyArgs : Option (List TypeNode)) (args : List Expr) (a : Expr)
    (hm : isMarkerName name = true)
    (h0 : args.head? = some a) (hnl : isStringLiteralLike a = false) :
    visitExpr C st (.call (.ident name) tyArgs args)
      = .ok ({ st with visited := st.visited ++ [.call (.ident name) tyArgs args] },
             .call (.ident name) tyArgs args) := by
  have hg : nonLiteralFirstArg args = true := by
    unfold nonLiteralFirstArg
    rw [h0]
    simp [hnl]
  rw [visitExpr]
  by_cases hask : (name == "llm" || name == "ask") = true
  · rw [if_pos hask, rewriteAskCall.eq_def, if_pos hg]
  · rw [if_neg hask]
    have hor : (name == "llm" || name == "ask") = false := by
      cases hx : (name == "llm" || name == "ask") with
      | true => exact absurd hx hask
      | false => rfl
    have hdef : (name == "define") = true := by
      have hassoc : isMarkerName name
          = ((name == "llm" || name == "ask") || (name == "define")) := rfl
      rw [hassoc, hor, Bool.false_or] at hm
      exact hm
    rw [if_pos hdef, rewriteDefineCall.eq_def, if_pos hg]

/-- Witness for C8: `ask<7>(x)` with an identifier first argument passes
through unchanged. -/
theorem claim_C8_witness :
    visitExpr sampleCtx st0 (.call (.ident "ask") (some [7]) [.ident "x"])
      = .ok ({ st0 with visited := [.call (.ident "ask") (some [7]) [.ident "x"]] },
             .call (.ident "ask") (some [7]) [.ident "x"]) :=
  claim_C8_nonliteral_passthrough sampleCtx st0 "ask" (some [7]) [.ident "x"]
    (.ident "x") rfl rfl rfl

/-- Claim C9: a define call-form with exactly one type argument and a
string-literal (or absent) first argument is replaced by an invocation of
the same callee with arguments `[type descriptor expression, ...original
arguments]`; the state (metadata, imports) is returned untouched and the
result does not depend on the filesystem in any way. -/
theorem claim_C9_define_rewrite (C : Ctx) (fs2 : FS) (st : TState) (c : Expr)
    (t : TypeNode) (args : List Expr)
    (hlit : ∀ a, args.head? = some a → isStringLiteralLike a = true) :
    rewriteDefineCall C st c (some [t]) args
        = .ok (st, .call c (some [t]) (createTypeExpression C.env t :: args))
  ∧ rewriteDefineCall { C with fs := fs2 } st c (some [t]) args
        = .ok (st, .call c (some [t]) (createTypeExpression C.env t :: args)) := by
  have hg := nonLiteralFirstArg_false args hlit
  exact ⟨rewriteDefineCall_single C st c t args hg,
         rewriteDefineCall_single { C with fs := fs2 } st c t args hg⟩

/-- Witness for C9: `define<7>("d")` becomes `define<7>(dir7, "d")` with
the state unchanged, on two different filesystems. -/
theorem claim_C9_witness :
    rewriteDefineCall sampleCtx st0 (.ident "define") (some [7]) [.stringLit "d"]
        = .ok (st0, .call (.ident "define") (some [7]) [.ident "dir7", .stringLit "d"])
  ∧ rewriteDefineCall { sampleCtx with fs := fsAll } st0 (.ident "define")
        (some [7]) [.stringLit "d"]
        = .ok (st0, .call (.ident "define") (some [7]) [.ident "dir7", .stringLit "d"]) :=
  claim_C9_define_rewrite sampleCtx fsAll st0 (.ident "define") 7 [.stringLit "d"]
    (fun a ha => by cases ha; rfl)

/-- Claim C10, amended: passing both guards does not imply a first
positional argument exists.  With exactly one type argument and zero
positional arguments both guards pass and the read of `arguments[0]` is out
of bounds: the rewrite aborts with the undefined-access runtime error
instead of rewriting.  The read is in bounds exactly when at least one
positional argument is present (and it is then the string literal the first
guard checked). -/
theorem claim_C10_guard_gap (C : Ctx) (st : TState) (c : Expr) (t : TypeNode)
    (args : List Expr)
    (hlit : ∀ a, args.head? = some a → isStringLiteralLike a = true) :
    (args = [] → rewriteAskCall C st c (some [t]) args = .error .undefinedAccess)
  ∧ (args ≠ [] → ∃ a, args.head? = some a ∧ isStringLiteralLike a = true) := by
  constructor
  · intro he
    subst he
    rfl
  · intro hne
    cases args with
    | nil => exact absurd rfl hne
    | cons a as => exact ⟨a, rfl, hlit a rfl⟩

/-- Counterexample to C10 as stated: `ask<7>()` (one type argument, zero
positional arguments) passes both guards — the result is neither the
unchanged node nor `MissingTypeArgument` — yet there is no first positional
argument, and the rewrite aborts with the undefined-access error. -/
theorem claim_C10_counterexample :
    rewriteAskCall sampleCtx st0 (.ident "ask") (some [7]) [] = .error .undefinedAccess
  ∧ rewriteAskCall sampleCtx st0 (.ident "ask") (some [7]) [] ≠ .error .missingTypeArgument
  ∧ ([] : List Expr).head? = none
  ∧ nonLiteralFirstArg [] = false := by
  refine ⟨rfl, ?_, rfl, rfl⟩
  intro h
  have h2 : (Except.error TErr.undefinedAccess : Except TErr (TState × Expr))
      = .error .missingTypeArgument :=
    (rfl : rewriteAskCall sampleCtx st0 (.ident "ask") (some [7]) []
        = .error .undefinedAccess).symm.trans h
  injection h2 with h3
  exact TErr.noConfusion h3

/-- Witness for the amended C10 theorem at a concrete input. -/
theorem claim_C10_witness :
    rewriteAskCall sampleCtx st0 (.ident "llm") (some [3]) [] = .error .undefinedAccess :=
  (claim_C10_guard_gap sampleCtx st0 (.ident "llm") 3 []
    (fun _ ha => Option.noConfusion ha)).1 rfl

/-- Shape of a successful ask rewrite: with a string-literal template,
exactly one type argument and successful variable resolution, the result
is the REDIRECT or INLINE replacement selected by module existence, with
the metadata record appended either way. -/
theorem rewriteAskCall_success (C : Ctx) (st : TState) (c : Expr) (t : TypeNode)
    (text : String) (rest : List Expr) (varSyms : List String)
    (hres : resolveVars C.env (C.env.extractVariables text) = .ok varSyms) :
    rewriteAskCall C st c (some [t]) (.stringLit text :: rest) =
      if C.fs.existsSync (makeModuleName C.fileName (askName C.env text varSyms t)).modulePath then
        .ok ({ st with
                info := st.info ++ [askRecord C.env text varSyms t rest],
                imports := st.imports ++ [Stmt.importDecl [askName C.env text varSyms t]
                  ("./askit/" ++ askName C.env text varSyms t)] },
             makeCall (askName C.env text varSyms t) (askName C.env text varSyms t)
               (varSyms.map .ident))
      else
        .ok ({ st with info := st.info ++ [askRecord C.env text varSyms t rest] },
             .call c (some [t]) [C.env.convertToDynamicType t, .stringLit text,
               examplesNodeOf rest, makeVariableMapObject (C.env.extractVariables text)]) := by
  cases rest with
  | nil =>
    rw [rewriteAskCall.eq_def, if_neg (by simp [nonLiteralFirstArg, isStringLiteralLike])]
    simp only [List.head?_cons, List.getElem?_cons_succ, List.getElem?_cons_zero,
      List.getElem?_nil, stringLitText]
    rw [hres]
    simp only [askName, askRecord, examplesOf, examplesNodeOf, makeModuleName, makeCall]
  | cons a rest2 =>
    rw [rewriteAskCall.eq_def, if_neg (by simp [nonLiteralFirstArg, isStringLiteralLike])]
    simp only [List.head?_cons, List.getElem?_cons_succ, List.getElem?_cons_zero,
      List.getElem?_nil, stringLitText]
    rw [hres]
    simp only [askName, askRecord, examplesOf, examplesNodeOf, makeModuleName, makeCall]

/-- Claim C2: an ask/llm call-form with a string-literal template whose
generated module does not exist on disk (INLINE) is replaced by an
invocation of the same callee whose argument list is exactly [dynamic type
descriptor expression, the original template literal, the original second
argument or an empty-array literal if fewer than two arguments were given,
an object literal mapping each extracted variable name to an identifier of
the same name]; one metadata record is appended whose params field is the
ordered (parameter type, parameter name) pairs of the extracted variables;
the pending imports are untouched. -/
theorem claim_C2_inline_rewrite (C : Ctx) (st : TState) (c : Expr) (t : TypeNode)
    (text : String) (rest : List Expr) (varSyms : List String)
    (hres : resolveVars C.env (C.env.extractVariables text) = .ok varSyms)
    (hfs : C.fs.existsSync
      (makeModuleName C.fileName (askName C.env text varSyms t)).modulePath = false) :
    rewriteAskCall C st c (some [t]) (.stringLit text :: rest)
        = .ok ({ st with info := st.info ++ [askRecord C.env text varSyms t rest] },
               .call c (some [t]) [C.env.convertToDynamicType t, .stringLit text,
                 examplesNodeOf rest, makeVariableMapObject (C.env.extractVariables text)])
  ∧ (askRecord C.env text varSyms t rest).params
        = (C.env.extractVariables text).map fun v => (C.env.typeOfSymbol v, v) := by
  have hv := resolveVars_ok_eq C.env _ _ hres
  constructor
  · rw [rewriteAskCall_success C st c t text rest varSyms hres, if_neg (by simp [hfs])]
  · subst hv
    rfl

/-- Witness for C2 at `ask<7>("t")` over `sampleEnv` with no module on
disk, evaluating every piece of the rewrite and the metadata record. -/
theorem claim_C2_witness :
    rewriteAskCall sampleCtx st0 (.ident "ask") (some [7]) [.stringLit "t"]
        = .ok ({ st0 with info := [Info.mk "sig_fn_t_Tx_Ty_R7" "t!"
                   [("Tx", "x"), ("Ty", "y")] "fn_t_Tx_Ty_R7" []] },
               .call (.ident "ask") (some [7]) [.ident "dyn7", .stringLit "t",
                 .arrayLit [], .objectLit ["x", "y"] [.ident "x", .ident "y"]])
  ∧ [("Tx", "x"), ("Ty", "y")]
        = (sampleEnv.extractVariables "t").map fun v => (sampleEnv.typeOfSymbol v, v) :=
  claim_C2_inline_rewrite sampleCtx st0 (.ident "ask") 7 "t" [] ["x", "y"] rfl rfl

/-- Claim C3: an ask/llm call-form with a string-literal template whose
generated module exists on disk (REDIRECT) appends the import of the
synthesized name from the conventional relative path `./askit/<name>` to
the pending prologue imports, replaces the call-form with an invocation of
the imported symbol through the module alias applied to the resolved
variable identifiers in template order, and still appends the same
metadata record as in the INLINE case. -/
theorem claim_C3_redirect_rewrite (C : Ctx) (st : TState) (c : Expr) (t : TypeNode)
    (text : String) (rest : List Expr) (varSyms : List String)
    (hres : resolveVars C.env (C.env.extractVariables text) = .ok varSyms)
    (hfs : C.fs.existsSync
      (makeModuleName C.fileName (askName C.env text varSyms t)).modulePath = true) :
    rewriteAskCall C st c (some [t]) (.stringLit text :: rest)
        = .ok ({ st with
                  info := st.info ++ [askRecord C.env text varSyms t rest],
                  imports := st.imports ++ [Stmt.importDecl [askName C.env text varSyms t]
                    ("./askit/" ++ askName C.env text varSyms t)] },
               makeCall (askName C.env text varSyms t) (askName C.env text varSyms t)
                 (varSyms.map .ident))
  ∧ varSyms = C.env.extractVariables text := by
  have hv := resolveVars_ok_eq C.env _ _ hres
  constructor
  · rw [rewriteAskCall_success C st c t text rest varSyms hres, if_pos hfs]
  · exact hv

/-- Witness for C3 at `ask<7>("t")` over `sampleEnv` with the generated
module present: the call becomes `fn_t_Tx_Ty_R7_1.fn_t_Tx_Ty_R7(x, y)` and
the import of the synthesized name from `./askit/fn_t_Tx_Ty_R7` is
scheduled. -/
theorem claim_C3_witness :
    rewriteAskCall sampleCtxAll st0 (.ident "ask") (some [7]) [.stringLit "t"]
        = .ok ({ st0 with
                  info := [Info.mk "sig_fn_t_Tx_Ty_R7" "t!"
                    [("Tx", "x"), ("Ty", "y")] "fn_t_Tx_Ty_R7" []],
                  imports := [Stmt.importDecl ["fn_t_Tx_Ty_R7"] "./askit/fn_t_Tx_Ty_R7"] },
               .call (.propAccess (.ident "fn_t_Tx_Ty_R7_1") "fn_t_Tx_Ty_R7") none
                 [.ident "x", .ident "y"])
  ∧ ["x", "y"] = sampleEnv.extractVariables "t" :=
  claim_C3_redirect_rewrite sampleCtxAll st0 (.ident "ask") 7 "t" [] ["x", "y"] rfl rfl

/-- Claim C4, amended: the examples field of the metadata record is the
statically known value bound to the identifier when the second argument is
a bare identifier, and the empty list in every other case — including when
the second argument is an inline literal array (whose contents are
forwarded in the rewritten call but never copied into the record) and when
no second argument is given. -/
theorem claim_C4_examples_field (C : Ctx) (st : TState) (c : Expr) (t : TypeNode)
    (text : String) (rest : List Expr) (varSyms : List String)
    (hres : resolveVars C.env (C.env.extractVariables text) = .ok varSyms) :
    ∀ p, rewriteAskCall C st c (some [t]) (.stringLit text :: rest) = .ok p →
      ∃ r, p.1.info = st.info ++ [r]
        ∧ (∀ x rest2, rest = .ident x :: rest2 → r.examples = C.env.getIdentifierValue x)
        ∧ (∀ a rest2, rest = a :: rest2 → isIdentExpr a = false → r.examples = [])
        ∧ (rest = [] → r.examples = []) := by
  intro p hp
  rw [rewriteAskCall_success C st c t text rest varSyms hres] at hp
  have hepx : ∀ x rest2, rest = Expr.ident x :: rest2 →
      examplesOf C.env rest = C.env.getIdentifierValue x := by
    intro x rest2 he
    subst he
    rfl
  have hepa : ∀ a rest2, rest = a :: rest2 → isIdentExpr a = false →
      examplesOf C.env rest = [] := by
    intro a rest2 he hni
    subst he
    simp [examplesOf, hni]
  have hepn : rest = [] → examplesOf C.env rest = [] := by
    intro he
    subst he
    rfl
  split at hp <;> cases hp <;>
    exact ⟨askRecord C.env text varSyms t rest, rfl, hepx, hepa, hepn⟩

/-- Counterexample to C4 as stated: with the inline literal array
`[.stringLit "e1"]` as second argument, the flushed record's examples field
is the empty list, not the inline (nonempty) literal array. -/
theorem claim_C4_counterexample :
    (rewriteAskCall sampleCtx st0 (.ident "ask") (some [7])
        [.stringLit "t", .arrayLit [.stringLit "e1"]]).map
          (fun p => p.1.info.map Info.examples)
      = .ok [[]]
  ∧ (Expr.arrayLit [.stringLit "e1"]) ≠ .arrayLit [] := by
  constructor
  · rfl
  · intro h
    injection h with h2
    exact List.noConfusion h2

/-- Witness for the amended C4 theorem: with a bare identifier `z` as
second argument the record's examples field is the looked-up value of `z`.
-/
theorem claim_C4_witness :
    ∃ r, ({ st0 with info := [Info.mk "sig_fn_t_Tx_Ty_R7" "t!"
               [("Tx", "x"), ("Ty", "y")] "fn_t_Tx_Ty_R7" ["val_z"]] } : TState).info
          = st0.info ++ [r]
      ∧ (∀ x rest2, [Expr.ident "z"] = Expr.ident x :: rest2 →
          r.examples = sampleEnv.getIdentifierValue x)
      ∧ (∀ a rest2, [Expr.ident "z"] = a :: rest2 → isIdentExpr a = false →
          r.examples = [])
      ∧ ([Expr.ident "z"] = ([] : List Expr) → r.examples = []) :=
  claim_C4_examples_field sampleCtx st0 (.ident "ask") 7 "t" [.ident "z"]
    ["x", "y"] rfl _ rfl

/-- Claim C1, amended: for a source unit whose backing file does not exist
and whose base name is not `<repl>.ts`, the transform skips only the
prologue-splicing step performed by `update`: the returned unit is the
traversed unit — marker call-forms inside it are still rewritten — the
metadata sidecar is still written according to the accumulated records,
and the process-wide accumulators are not cleared (the traversal's pending
imports are left in place). -/
theorem claim_C1_skip_rule (env : Env) (fs : FS) (gs : GState) (file : SourceFile)
    (st : TState) (stmts2 : List Stmt)
    (hex : fs.existsSync file.fileName = false)
    (hrep : pathBasename file.fileName ≠ "<repl>.ts")
    (hv : visitStmts { env := env, fs := fs, fileName := file.fileName }
            { info := [], imports := gs.imports, visited := [] } file.statements
          = .ok (st, stmts2)) :
    transformer env fs gs file
      = .ok ({ file with statements := stmts2 }, saveInfo file.fileName st.info,
             { functions := gs.functions, imports := st.imports }) := by
  simp only [transformer]
  rw [hv]
  simp only [update, hex, hrep]
  simp [hrep]

/-- Counterexample to C1 as stated: the unit `gen.ts` does not exist on
disk and is not the repl pseudo-file, yet its ask call-form is rewritten
(the returned statements differ from the original ones) and a metadata
sidecar is written. -/
theorem claim_C1_counterexample :
    fsNone.existsSync genFile.fileName = false
  ∧ pathBasename genFile.fileName ≠ "<repl>.ts"
  ∧ transformer sampleEnv fsNone gs0 genFile
      = .ok ({ genFile with statements := [.exprStmt (.call (.ident "ask") (some [7])
                 [.ident "dyn7", .stringLit "t", .arrayLit [],
                  .objectLit ["x", "y"] [.ident "x", .ident "y"]])] },
             some ("./askit/gen.ts.jsonl", [Info.mk "sig_fn_t_Tx_Ty_R7" "t!"
               [("Tx", "x"), ("Ty", "y")] "fn_t_Tx_Ty_R7" []]),
             gs0)
  ∧ [Stmt.exprStmt (.call (.ident "ask") (some [7]) [.ident "dyn7", .stringLit "t",
       .arrayLit [], .objectLit ["x", "y"] [.ident "x", .ident "y"]])]
      ≠ genFile.statements := by
  refine ⟨rfl, by decide, rfl, ?_⟩
  simp [genFile, askNode]

/-- Witness for the amended C1 theorem at the concrete unit `gen.ts`. -/
theorem claim_C1_witness :
    transformer sampleEnv fsNone gs0 genFile
      = .ok ({ genFile with statements := [.exprStmt (.call (.ident "ask") (some [7])
                 [.ident "dyn7", .stringLit "t", .arrayLit [],
                  .objectLit ["x", "y"] [.ident "x", .ident "y"]])] },
             saveInfo genFile.fileName [Info.mk "sig_fn_t_Tx_Ty_R7" "t!"
               [("Tx", "x"), ("Ty", "y")] "fn_t_Tx_Ty_R7" []],
             { functions := [], imports := [] }) :=
  claim_C1_skip_rule sampleEnv fsNone gs0 genFile
    { info := [Info.mk "sig_fn_t_Tx_Ty_R7" "t!" [("Tx", "x"), ("Ty", "y")]
        "fn_t_Tx_Ty_R7" []], imports := [], visited := [askNode] }
    [.exprStmt (.call (.ident "ask") (some [7]) [.ident "dyn7", .stringLit "t",
       .arrayLit [], .objectLit ["x", "y"] [.ident "x", .ident "y"]])]
    rfl (by decide) rfl

/-- Claim C6: for a unit whose backing file exists, starting from cleared
process-wide accumulators, the transform emits the pending imports
accumulated during traversal, then the eight shared-module const bindings
(one per entry of the fixed vocabulary, unconditionally), then the
traversed pre-existing statements (same count, same order; verbatim when
the unit holds no marker call-form, in which case no record accumulates);
afterwards both process-wide accumulators are cleared, and no metadata file
is written when no records were accumulated. -/
theorem claim_C6_update_shape (env : Env) (fs : FS) (gs : GState) (file : SourceFile)
    (st : TState) (stmts2 : List Stmt)
    (hex : fs.existsSync file.fileName = true)
    (hfn : gs.functions = []) (him : gs.imports = [])
    (hv : visitStmts { env := env, fs := fs, fileName := file.fileName }
            { info := [], imports := gs.imports, visited := [] } file.statements
          = .ok (st, stmts2)) :
    (transformer env fs gs file
        = .ok ({ file with statements :=
                  st.imports
                  ++ typeVocabulary.map (fun n =>
                       createRequire ("__" ++ n ++ "__") n [(MODULE_NAME ++ "/types")])
                  ++ stmts2 },
               saveInfo file.fileName st.info,
               { functions := [], imports := [] }))
  ∧ typeVocabulary.length = 8
  ∧ stmts2.length = file.statements.length
  ∧ (st.info = [] → saveInfo file.fileName st.info = none)
  ∧ (countMarkersStmts file.statements = 0 →
       stmts2 = file.statements ∧ st.info = [] ∧ st.imports = []) := by
  refine ⟨?_, rfl, visitStmts_length _ _ _ _ hv, ?_, ?_⟩
  · simp only [transformer]
    rw [hv]
    simp only [update, hex]
    rw [if_neg (by simp [hex])]
    simp [requireBindings, typeVocabulary, hfn]
  · intro h0
    simp [saveInfo, h0]
  · intro hnm
    have hid := visitStmts_noMarkers
      { env := env, fs := fs, fileName := file.fileName }
      { info := [], imports := gs.imports, visited := [] } file.statements hnm
    rw [hid] at hv
    cases hv
    exact ⟨rfl, rfl, him⟩

/-- Witness for C6 at a unit `main.ts` (present on disk) holding a single
non-marker statement: the prologue is exactly the eight bindings, the
statement is preserved verbatim, and no metadata is written. -/
theorem claim_C6_witness :
    (transformer sampleEnv fsMain gs0 (SourceFile.mk "main.ts" [Stmt.other 0])
        = .ok (SourceFile.mk "main.ts"
                 (([] : List Stmt)
                  ++ typeVocabulary.map (fun n =>
                       createRequire ("__" ++ n ++ "__") n [(MODULE_NAME ++ "/types")])
                  ++ [Stmt.other 0]),
               saveInfo "main.ts" ([] : List Info),
               { functions := [], imports := [] }))
  ∧ typeVocabulary.length = 8
  ∧ ([Stmt.other 0] : List Stmt).length = ([Stmt.other 0] : List Stmt).length
  ∧ (([] : List Info) = [] → saveInfo "main.ts" ([] : List Info) = none)
  ∧ (countMarkersStmts [Stmt.other 0] = 0 →
       [Stmt.other 0] = [Stmt.other 0] ∧ ([] : List Info) = [] ∧ ([] : List Stmt) = []) :=
  claim_C6_update_shape sampleEnv fsMain gs0 (SourceFile.mk "main.ts" [Stmt.other 0])
    { info := [], imports := [], visited := [] } [Stmt.other 0] rfl rfl rfl rfl

/-- Claim C5, amended: within one pass over a source unit the traversal
dispatches exactly the outermost marker call-forms of the unit, each
exactly once, in traversal order; it does not descend into a dispatched
marker call-form's arguments, so marker call-forms nested there are never
visited.  Moreover each dispatched rewrite is independent of previously
accumulated state: its replacement expression and its appended
metadata/import deltas are functions of the call-form alone. -/
theorem claim_C5_visit_once (C : Ctx) (st : TState) (ss : List Stmt)
    (p : TState × List Stmt) (hv : visitStmts C st ss = .ok p) :
    p.1.visited = st.visited ++ topMarkersStmts ss
  ∧ (∀ c ty args st1 st2 p1 p2,
      rewriteAskCall C st1 c ty args = .ok p1 →
      rewriteAskCall C st2 c ty args = .ok p2 →
        p1.2 = p2.2
        ∧ p1.1.info.drop st1.info.length = p2.1.info.drop st2.info.length
        ∧ p1.1.imports.drop st1.imports.length = p2.1.imports.drop st2.imports.length)
  ∧ (∀ c ty args st1 st2 p1 p2,
      rewriteDefineCall C st1 c ty args = .ok p1 →
      rewriteDefineCall C st2 c ty args = .ok p2 →
        p1.2 = p2.2 ∧ p1.1 = st1 ∧ p2.1 = st2) := by
  refine ⟨visitStmts_visited C st ss p hv, ?_, ?_⟩
  · intro c ty args st1 st2 p1 p2 h1 h2
    rw [rewriteAskCall_eq] at h1 h2
    cases hd : askRewriteDelta C c ty args with
    | error e => rw [hd] at h1; exact Except.noConfusion h1
    | ok d =>
      rw [hd] at h1 h2
      cases h1
      cases h2
      refine ⟨rfl, ?_, ?_⟩ <;> simp
  · intro c ty args st1 st2 p1 p2 h1 h2
    by_cases hgd : nonLiteralFirstArg args = true
    · rw [rewriteDefineCall.eq_def, if_pos hgd] at h1 h2
      cases h1
      cases h2
      exact ⟨rfl, rfl, rfl⟩
    · have hgf : nonLiteralFirstArg args = false := by
        cases hx : nonLiteralFirstArg args with
        | true => exact absurd hx hgd
        | false => rfl
      by_cases hsingle : ∃ t, ty = some [t]
      · obtain ⟨t, rfl⟩ := hsingle
        rw [rewriteDefineCall_single C st1 c t args hgf] at h1
        rw [rewriteDefineCall_single C st2 c t args hgf] at h2
        cases h1
        cases h2
        exact ⟨rfl, rfl, rfl⟩
      · rw [rewriteDefineCall_missing_of_not_single C st1 c ty args hgf
            (fun t ht => hsingle ⟨t, ht⟩)] at h1
        exact Except.noConfusion h1

/-- Counterexample to C5 as stated: `ask<7>("t", llm<7>("u"))` contains two
marker call-forms, but one traversal dispatches only the outer one; the
nested `llm` call is forwarded into the rewritten argument list unvisited
and unrewritten. -/
theorem claim_C5_counterexample :
    countMarkers nestedAsk = 2
  ∧ (visitExpr sampleCtx st0 nestedAsk).map (fun p => p.1.visited) = .ok [nestedAsk]
  ∧ (visitExpr sampleCtx st0 nestedAsk).map (fun p => p.2)
      = .ok (.call (.ident "ask") (some [7]) [.ident "dyn7", .stringLit "t",
          .call (.ident "llm") (some [7]) [.stringLit "u"],
          .objectLit ["x", "y"] [.ident "x", .ident "y"]]) :=
  ⟨rfl, rfl, rfl⟩

/-- Witness for the amended C5 theorem at a one-statement unit holding
`ask<7>("t")`. -/
theorem claim_C5_witness :
    ([askNode] : List Expr) = [] ++ topMarkersStmts [.exprStmt askNode]
  ∧ (∀ c ty args st1 st2 p1 p2,
      rewriteAskCall sampleCtx st1 c ty args = .ok p1 →
      rewriteAskCall sampleCtx st2 c ty args = .ok p2 →
        p1.2 = p2.2
        ∧ p1.1.info.drop st1.info.length = p2.1.info.drop st2.info.length
        ∧ p1.1.imports.drop st1.imports.length = p2.1.imports.drop st2.imports.length)
  ∧ (∀ c ty args st1 st2 p1 p2,
      rewriteDefineCall sampleCtx st1 c ty args = .ok p1 →
      rewriteDefineCall sampleCtx st2 c ty args = .ok p2 →
        p1.2 = p2.2 ∧ p1.1 = st1 ∧ p2.1 = st2) :=
  claim_C5_visit_once sampleCtx st0 [.exprStmt askNode]
    ({ info := [Info.mk "sig_fn_t_Tx_Ty_R7" "t!" [("Tx", "x"), ("Ty", "y")]
        "fn_t_Tx_Ty_R7" []], imports := [], visited := [askNode] },
     [.exprStmt (.call (.ident "ask") (some [7]) [.ident "dyn7", .stringLit "t",
       .arrayLit [], .objectLit ["x", "y"] [.ident "x", .ident "y"]])]) rfl

end Askit
